import Mathlib

/-!
Shallow embedding of the tooltip-layout engine of the RolloverModifier fix
(`spreadTooltips`, `checkHasOverlap`, `getTotalSize`, `getTotalSpacing`,
`getStartPoint`, `getEndPoint`, `getUpdatedPoints`,
`getTooltipPositionProperties`, `splitIntoClusters`, `calcTooltipPositions`).
Numbers are modelled by `ℚ`; the TypeScript source computes with IEEE doubles,
and every algebraic fact proved here is exact rational arithmetic.
JavaScript's `Map<number, number>` is modelled by an association list with
`Map.set` replacement semantics, and the in-place mutation of tooltip objects
is modelled by returning updated copies (see the comment on
`calcTooltipPositions`).
-/

namespace Rollover

/-- Props type used for tooltips in the RolloverModifier (`TTooltipProps`).
`seriesInfo` is an opaque payload from the charting library, modelled by an
abstract tag; `hitTestPointValues` is a `Point`, modelled as a pair. -/
structure TTooltipProps where
  index : Int
  xValue : ℚ
  yValue : ℚ
  xCoord : ℚ
  yCoord : ℚ
  xCoordShift : ℚ
  yCoordShift : ℚ
  hitTestPointValues : ℚ × ℚ
  isCategoryAxis : Bool
  isY1 : Bool
  height : ℚ
  width : ℚ
  seriesInfo : Nat
  deriving DecidableEq, Repr

instance : Inhabited TTooltipProps :=
  ⟨⟨0, 0, 0, 0, 0, 0, 0, (0, 0), false, false, 0, 0, 0⟩⟩

/-- `ESize` of the source: which size field is selected. -/
inductive ESize where
  | width
  | height
  deriving DecidableEq, Repr

/-- `ECoord` of the source: which coordinate field is selected. -/
inductive ECoord where
  | xCoord
  | yCoord
  deriving DecidableEq, Repr

/-- `EShift` of the source: which shift field is selected. -/
inductive EShift where
  | xCoordShift
  | yCoordShift
  deriving DecidableEq, Repr

/-- `TPositionPoperties` (typo kept from the source): the resolved selection
of size/coord/shift field names. -/
structure TPositionPoperties where
  sizePropertyName : ESize
  coordPropertyName : ECoord
  shiftPropertyName : EShift
  deriving DecidableEq, Repr

/-- Dynamic field access `tooltip[sizePropertyName]`. -/
def TTooltipProps.getSize (t : TTooltipProps) : ESize → ℚ
  | ESize.width => t.width
  | ESize.height => t.height

/-- Dynamic field access `tooltip[coordPropertyName]`. -/
def TTooltipProps.getCoord (t : TTooltipProps) : ECoord → ℚ
  | ECoord.xCoord => t.xCoord
  | ECoord.yCoord => t.yCoord

/-- Dynamic field access `tooltip[shiftPropertyName]`. -/
def TTooltipProps.getShift (t : TTooltipProps) : EShift → ℚ
  | EShift.xCoordShift => t.xCoordShift
  | EShift.yCoordShift => t.yCoordShift

/-- Dynamic field update `tooltip[shiftPropertyName] = v`. -/
def TTooltipProps.setShift (t : TTooltipProps) : EShift → ℚ → TTooltipProps
  | EShift.xCoordShift, v => { t with xCoordShift := v }
  | EShift.yCoordShift, v => { t with yCoordShift := v }

/-- The `seriesViewRect : Rect` of the charting library; only its extent
fields are read by the engine (`seriesViewRect[sizePropertyName]`). -/
structure Rect where
  x : ℚ
  y : ℚ
  width : ℚ
  height : ℚ
  deriving DecidableEq, Repr

/-- Dynamic field access `seriesViewRect[sizePropertyName]`. -/
def Rect.get (r : Rect) : ESize → ℚ
  | ESize.width => r.width
  | ESize.height => r.height

/-- A JavaScript `Map<number, number>` as an association list, keys in
insertion order. -/
abbrev ShiftMap : Type := List (Int × ℚ)

/-- `Map.set`: replaces the value of an existing key in place, otherwise
appends the new entry. -/
def mapSet : ShiftMap → Int → ℚ → ShiftMap
  | [], k, v => [(k, v)]
  | (k', v') :: rest, k, v =>
    if k' = k then (k, v) :: rest else (k', v') :: mapSet rest k v

/-- `Map.get`: the value of the first (hence, with `mapSet` semantics, only)
entry with the given key. -/
def mapGet : ShiftMap → Int → Option ℚ
  | [], _ => none
  | (k', v') :: rest, k => if k' = k then some v' else mapGet rest k

/-- `getTooltipPositionProperties` of the source. -/
def getTooltipPositionProperties (isVerticalChart : Bool) : TPositionPoperties :=
  if isVerticalChart then
    ⟨ESize.width, ECoord.xCoord, EShift.xCoordShift⟩
  else
    ⟨ESize.height, ECoord.yCoord, EShift.yCoordShift⟩

/-- `getTotalSize` of the source.  The source's `typeof size === "number"`
guard is always true here because the model's size fields are numbers. -/
def getTotalSize (tooltipArray : List TTooltipProps) (sizePropertyName : ESize) : ℚ :=
  tooltipArray.foldl (fun acc tooltip => acc + tooltip.getSize sizePropertyName) 0

/-- `getTotalSpacing` of the source: `(tooltipArray.length - 1) * spacing`. -/
def getTotalSpacing (tooltipArray : List TTooltipProps) (spacing : ℚ) : ℚ :=
  ((tooltipArray.length : ℚ) - 1) * spacing

/-- `getStartPoint` of the source. -/
def getStartPoint (coord shift pixelRatio : ℚ) : ℚ :=
  coord + shift * pixelRatio

/-- `getEndPoint` of the source. -/
def getEndPoint (coord shift pixelRatio size : ℚ) : ℚ :=
  coord + shift * pixelRatio + size

/-- `getUpdatedPoints` of the source.  The source initialises
`start`/`end` to the symmetric expansion and then overwrites them in each of
the two (independently checked) boundary `if`s; the sequential overwriting is
modelled by the two `if`s below, the second taking precedence over the
first exactly as in the source. -/
def getUpdatedPoints (startPoint endPoint totalBoxModel size : ℚ) : ℚ × ℚ :=
  let additionalWidth : ℚ := totalBoxModel - (endPoint - startPoint)
  let additionalWidthHalf : ℚ := additionalWidth / 2
  let availableWidthFromStart : ℚ := startPoint
  let availableWidthFromEnd : ℚ := size - endPoint
  let se₀ : ℚ × ℚ := (startPoint - additionalWidthHalf, endPoint + additionalWidthHalf)
  let se₁ : ℚ × ℚ :=
    if availableWidthFromStart < additionalWidthHalf then
      (0, endPoint + (additionalWidth - availableWidthFromStart))
    else se₀
  if availableWidthFromEnd < additionalWidthHalf then
    (startPoint - (additionalWidth - availableWidthFromEnd), size)
  else se₁

/-- The natural start point of a cluster: `getStartPoint` of its first
member (the source's local `startPoint` before updating). -/
def spreadNaturalStart (tooltipArray : List TTooltipProps) (pixelRatio : ℚ)
    (positionProperties : TPositionPoperties) : ℚ :=
  let firstTooltip := tooltipArray.headD default
  getStartPoint (firstTooltip.getCoord positionProperties.coordPropertyName)
    (firstTooltip.getShift positionProperties.shiftPropertyName) pixelRatio

/-- The natural end point of a cluster: `getEndPoint` of its last member
(the source's local `endPoint` before updating). -/
def spreadNaturalEnd (tooltipArray : List TTooltipProps) (pixelRatio : ℚ)
    (positionProperties : TPositionPoperties) : ℚ :=
  let lastTooltip := tooltipArray.getLastD default
  getEndPoint (lastTooltip.getCoord positionProperties.coordPropertyName)
    (lastTooltip.getShift positionProperties.shiftPropertyName) pixelRatio
    (lastTooltip.getSize positionProperties.sizePropertyName)

/-- `totalBoxModel` of `spreadTooltips`: `totalSize + totalSpacing`. -/
def totalBoxModel (tooltipArray : List TTooltipProps)
    (positionProperties : TPositionPoperties) (spacing : ℚ) : ℚ :=
  getTotalSize tooltipArray positionProperties.sizePropertyName
    + getTotalSpacing tooltipArray spacing

/-- The `updatedPoints` local of `spreadTooltips`: the cluster span after
boundary adjustment. -/
def spreadUpdatedPoints (tooltipArray : List TTooltipProps) (pixelRatio : ℚ)
    (positionProperties : TPositionPoperties) (spacing : ℚ)
    (seriesViewRect : Rect) : ℚ × ℚ :=
  getUpdatedPoints (spreadNaturalStart tooltipArray pixelRatio positionProperties)
    (spreadNaturalEnd tooltipArray pixelRatio positionProperties)
    (totalBoxModel tooltipArray positionProperties spacing)
    (seriesViewRect.get positionProperties.sizePropertyName)

/-- The `currentPadding` local of `spreadTooltips`:
`(endPoint - startPoint - totalSize) / (tooltipArray.length - 1)`. -/
def spreadPadding (tooltipArray : List TTooltipProps) (pixelRatio : ℚ)
    (positionProperties : TPositionPoperties) (spacing : ℚ)
    (seriesViewRect : Rect) : ℚ :=
  let updatedPoints := spreadUpdatedPoints tooltipArray pixelRatio positionProperties spacing seriesViewRect
  (updatedPoints.2 - updatedPoints.1
      - getTotalSize tooltipArray positionProperties.sizePropertyName)
    / ((tooltipArray.length : ℚ) - 1)

/-- One step of the `tooltipArray.reduce` of `spreadTooltips`: the
accumulator carries the running `tooltipTopCoord` together with the
`shiftMap` that the source mutates in place. -/
def spreadStep (positionProperties : TPositionPoperties)
    (pixelRatio currentPadding : ℚ) (acc : ℚ × ShiftMap)
    (tooltip : TTooltipProps) : ℚ × ShiftMap :=
  (acc.1 + tooltip.getSize positionProperties.sizePropertyName + currentPadding,
   mapSet acc.2 tooltip.index
     ((acc.1 - tooltip.getCoord positionProperties.coordPropertyName) / pixelRatio))

/-- `spreadTooltips` of the source: returns the index-to-shift map for one
cluster. -/
def spreadTooltips (tooltipArray : List TTooltipProps) (pixelRatio : ℚ)
    (positionProperties : TPositionPoperties) (spacing : ℚ)
    (seriesViewRect : Rect) : ShiftMap :=
  let updatedPoints := spreadUpdatedPoints tooltipArray pixelRatio positionProperties spacing seriesViewRect
  let currentPadding := spreadPadding tooltipArray pixelRatio positionProperties spacing seriesViewRect
  (tooltipArray.foldl (spreadStep positionProperties pixelRatio currentPadding)
    (updatedPoints.1, ([] : List (Int × ℚ)))).2

/-- `checkHasOverlap` of the source: the loop over adjacent pairs
`(i, i+1)` for `i` in `[0, length-1)`, modelled by structural recursion. -/
def checkHasOverlap : List TTooltipProps → ℚ → ℚ → TPositionPoperties → Bool
  | currentTooltip :: nextTooltip :: rest, spacing, pixelRatio, positionProperties =>
    let currentTooltipEndPoint : ℚ :=
      currentTooltip.getCoord positionProperties.coordPropertyName
        + currentTooltip.getSize positionProperties.sizePropertyName
        + currentTooltip.getShift positionProperties.shiftPropertyName * pixelRatio
    let nextTooltipStartPoint : ℚ :=
      nextTooltip.getCoord positionProperties.coordPropertyName
        + nextTooltip.getShift positionProperties.shiftPropertyName * pixelRatio
    let diff : ℚ := nextTooltipStartPoint - currentTooltipEndPoint
    if diff < spacing then true
    else checkHasOverlap (nextTooltip :: rest) spacing pixelRatio positionProperties
  | _, _, _, _ => false

/-- The comparator of `splitIntoClusters`'s
`[...tooltipArray].sort((a, b) => a[coord] - b[coord])`: JavaScript's sort
is stable and sorts ascending by coordinate; it is modelled by the (stable)
`List.mergeSort` with the corresponding `≤` test. -/
def coordLe (positionProperties : TPositionPoperties) (a b : TTooltipProps) : Bool :=
  decide (a.getCoord positionProperties.coordPropertyName
    ≤ b.getCoord positionProperties.coordPropertyName)

/-- The `for (const tooltip of sorted)` loop of `splitIntoClusters`, with the
`clusters` and `cluster` mutable accumulators made explicit. -/
def clusterLoop (spacing pixelRatio : ℚ) (positionProperties : TPositionPoperties) :
    List (List TTooltipProps) → List TTooltipProps → List TTooltipProps →
    List (List TTooltipProps)
  | clusters, cluster, [] =>
    if cluster.length > 0 then clusters ++ [cluster] else clusters
  | clusters, cluster, tooltip :: restTooltips =>
    if cluster.length = 0 then
      clusterLoop spacing pixelRatio positionProperties clusters (cluster ++ [tooltip]) restTooltips
    else
      let last := cluster.getLastD default
      let lastEnd := getEndPoint (last.getCoord positionProperties.coordPropertyName)
        (last.getShift positionProperties.shiftPropertyName) pixelRatio
        (last.getSize positionProperties.sizePropertyName)
      let currentStart := getStartPoint (tooltip.getCoord positionProperties.coordPropertyName)
        (tooltip.getShift positionProperties.shiftPropertyName) pixelRatio
      if currentStart < lastEnd + spacing / pixelRatio then
        clusterLoop spacing pixelRatio positionProperties clusters (cluster ++ [tooltip]) restTooltips
      else
        clusterLoop spacing pixelRatio positionProperties (clusters ++ [cluster]) [tooltip] restTooltips

/-- `splitIntoClusters` of the source. -/
def splitIntoClusters (tooltipArray : List TTooltipProps) (spacing pixelRatio : ℚ)
    (positionProperties : TPositionPoperties) : List (List TTooltipProps) :=
  let sorted := tooltipArray.mergeSort (coordLe positionProperties)
  clusterLoop spacing pixelRatio positionProperties [] [] sorted

/-- The body of the vertical-centering `forEach` of `calcTooltipPositions`. -/
def centerTooltip (pixelRatio : ℚ) (positionProperties : TPositionPoperties)
    (tooltip : TTooltipProps) : TTooltipProps :=
  let halfWidth := tooltip.width / 2 / pixelRatio
  if tooltip.xCoord > halfWidth then
    tooltip.setShift positionProperties.shiftPropertyName (-(tooltip.width / 2) / pixelRatio)
  else tooltip

/-- The candidate array after step 2 of `calcTooltipPositions` (vertical
pre-centering; the identity on horizontal charts). -/
def centeredArray (tooltipArray : List TTooltipProps) (pixelRatio : ℚ)
    (isVerticalChart : Bool) : List TTooltipProps :=
  if isVerticalChart then
    tooltipArray.map (centerTooltip pixelRatio (getTooltipPositionProperties isVerticalChart))
  else tooltipArray

/-- The combined index-to-shift mapping of the `clusters.forEach` of
`calcTooltipPositions`: one `spreadTooltips` map per cluster with at least
two members. -/
def combinedSpreadMap (clusters : List (List TTooltipProps)) (pixelRatio : ℚ)
    (positionProperties : TPositionPoperties) (spacing : ℚ)
    (seriesViewRect : Rect) : ShiftMap :=
  ((clusters.filter (fun cluster => 2 ≤ cluster.length)).map
    (fun cluster => spreadTooltips cluster pixelRatio positionProperties spacing seriesViewRect)).flatten

/-- The `cluster.forEach(tooltip => tooltip[shift] = spreadMap.get(tooltip.index))`
application step.  The source mutates each cluster's member objects in place;
since the clusters partition the array's objects and `index` values are
unique within a candidate list (caller invariant: the maps are keyed by
`index`), this equals updating, in the whole array, every tooltip whose
index occurs in one of the per-cluster maps. -/
def applyShiftMap (positionProperties : TPositionPoperties) (m : ShiftMap)
    (tooltipArray : List TTooltipProps) : List TTooltipProps :=
  tooltipArray.map (fun tooltip =>
    match mapGet m tooltip.index with
    | some v => tooltip.setShift positionProperties.shiftPropertyName v
    | none => tooltip)

/-- `calcTooltipPositions` of the source.  The in-place writes to the
`tooltipArray` objects are modelled functionally: the returned list is the
input list (after the vertical pre-centering pass) with the per-cluster
spread shifts applied through `applyShiftMap`. -/
def calcTooltipPositions (tooltipArray : List TTooltipProps)
    (allowTooltipOverlapping : Bool) (spacing : ℚ) (seriesViewRect : Rect)
    (pixelRatio : ℚ) (isVerticalChart : Bool := false) : List TTooltipProps :=
  let positionProperties := getTooltipPositionProperties isVerticalChart
  let arr := centeredArray tooltipArray pixelRatio isVerticalChart
  let hasOverlap := checkHasOverlap arr spacing pixelRatio positionProperties
  if !allowTooltipOverlapping && decide (2 ≤ arr.length) && hasOverlap then
    applyShiftMap positionProperties
      (combinedSpreadMap (splitIntoClusters arr spacing pixelRatio positionProperties)
        pixelRatio positionProperties spacing seriesViewRect)
      arr
  else arr

/-! ### Concrete fixtures used by witnesses and counterexamples -/

/-- A concrete horizontal-chart candidate: `index`, `yCoord`, `height` and
`yCoordShift` as given, every other field zero. -/
def mkCandidate (index : Int) (yCoord height yCoordShift : ℚ) : TTooltipProps :=
  { index := index, xValue := 0, yValue := 0, xCoord := 0, yCoord := yCoord,
    xCoordShift := 0, yCoordShift := yCoordShift, hitTestPointValues := (0, 0),
    isCategoryAxis := false, isY1 := false, height := height, width := 0,
    seriesInfo := 0 }

/-- The horizontal-chart axis configuration
(`size = height`, `coord = yCoord`, `shift = yCoordShift`). -/
def horizontalProps : TPositionPoperties := getTooltipPositionProperties false

/-- A viewport of height 300 device pixels. -/
def viewRect300 : Rect := ⟨0, 0, 0, 300⟩

/-- A viewport of height 1000 device pixels. -/
def viewRect1000 : Rect := ⟨0, 0, 0, 1000⟩

/-- The narrow viewport of the three-candidate degraded scenario
(`viewportExtent` = 10). -/
def viewRect10 : Rect := ⟨0, 0, 0, 10⟩

/-- The three tightly packed candidates of the degraded scenario:
`coord` = 0, 1, 2, each of size 20 device pixels, no initial shift. -/
def narrowCluster : List TTooltipProps :=
  [mkCandidate 0 0 20 0, mkCandidate 1 1 20 0, mkCandidate 2 2 20 0]

/-- The two-candidate cluster of the spec's concrete scenario:
`yCoord` = 100 and 105, each `height` = 20, `spacing` = 4, `pixelRatio` = 1,
viewport height 300. -/
def pairCluster : List TTooltipProps :=
  [mkCandidate 0 100 20 0, mkCandidate 1 105 20 0]

/-! ### Field-access helper lemmas -/

theorem index_setShift (t : TTooltipProps) (s : EShift) (v : ℚ) :
    (t.setShift s v).index = t.index := by
  cases s <;> rfl

theorem getCoord_setShift (t : TTooltipProps) (s : EShift) (v : ℚ) (c : ECoord) :
    (t.setShift s v).getCoord c = t.getCoord c := by
  cases s <;> cases c <;> rfl

theorem getSize_setShift (t : TTooltipProps) (s : EShift) (v : ℚ) (sz : ESize) :
    (t.setShift s v).getSize sz = t.getSize sz := by
  cases s <;> cases sz <;> rfl

theorem getShift_setShift_self (t : TTooltipProps) (s : EShift) (v : ℚ) :
    (t.setShift s v).getShift s = v := by
  cases s <;> rfl

theorem setShift_setShift (t : TTooltipProps) (s : EShift) (v w : ℚ) :
    (t.setShift s v).setShift s w = t.setShift s w := by
  cases s <;> rfl

/-! ### Map helper lemmas -/

theorem mapGet_mapSet_self (m : ShiftMap) (k : Int) (v : ℚ) :
    mapGet (mapSet m k v) k = some v := by
  induction m with
  | nil => simp [mapSet, mapGet]
  | cons e rest ih =>
    obtain ⟨k', v'⟩ := e
    by_cases h : k' = k
    · simp [mapSet, mapGet, h]
    · simp [mapSet, mapGet, h, ih]

theorem mapGet_mapSet_ne (m : ShiftMap) (k' k : Int) (v : ℚ) (h : k' ≠ k) :
    mapGet (mapSet m k' v) k = mapGet m k := by
  induction m with
  | nil => simp [mapSet, mapGet, h]
  | cons e rest ih =>
    obtain ⟨ke, ve⟩ := e
    by_cases he : ke = k'
    · subst he
      simp [mapSet, mapGet, h]
    · simp [mapSet, he, mapGet, ih]

/-! ### The boundary-adjustment span -/

/-- In every branch of `getUpdatedPoints` the returned span has length
exactly `totalBoxModel`. -/
theorem getUpdatedPoints_span (startPoint endPoint totalBoxModel size : ℚ) :
    (getUpdatedPoints startPoint endPoint totalBoxModel size).2
      - (getUpdatedPoints startPoint endPoint totalBoxModel size).1
      = totalBoxModel := by
  simp only [getUpdatedPoints]
  split
  · ring
  · split
    · ring
    · ring

/-- The `currentPadding` of `spreadTooltips` always equals `spacing` for
clusters of at least two members, because the adjusted span always has
length `totalBoxModel`. -/
theorem spreadPadding_eq (tooltipArray : List TTooltipProps) (pixelRatio : ℚ)
    (positionProperties : TPositionPoperties) (spacing : ℚ) (seriesViewRect : Rect)
    (hlen : 2 ≤ tooltipArray.length) :
    spreadPadding tooltipArray pixelRatio positionProperties spacing seriesViewRect
      = spacing := by
  have hn : ((tooltipArray.length : ℚ) - 1) ≠ 0 := by
    have h2 : (2 : ℚ) ≤ (tooltipArray.length : ℚ) := by exact_mod_cast hlen
    intro hc
    rw [sub_eq_zero] at hc
    rw [hc] at h2
    norm_num at h2
  simp only [spreadPadding, spreadUpdatedPoints]
  rw [getUpdatedPoints_span]
  unfold totalBoxModel getTotalSpacing
  rw [add_comm (getTotalSize tooltipArray positionProperties.sizePropertyName),
    add_sub_cancel_right, mul_comm,
    mul_div_assoc, div_self hn, mul_one]

/-! ### Claims C2, C4 and C6: the boundary-adjustment step -/

/-- C2 (counterexample): in the concrete three-candidate scenario
(`coord` = 0, 1, 2, each size 20, `spacing` = 4, `pixelRatio` = 1,
`viewportExtent` = 10) both clamp conditions fire, yet the boundary-adjusted
span is `(-58, 10)`, not `(0, 10)`: the second clamp overwrites the first,
so the start is not pinned to 0. -/
theorem spreadUpdatedPoints_not_pinned_counterexample :
    spreadUpdatedPoints narrowCluster 1 horizontalProps 4 viewRect10 = (-58, 10)
    ∧ spreadUpdatedPoints narrowCluster 1 horizontalProps 4 viewRect10 ≠ (0, 10) :=
  ⟨of_decide_eq_true (by with_unfolding_all rfl),
    of_decide_eq_true (by with_unfolding_all rfl)⟩

/-- C2 (amended): when the required span exceeds the available room on both
sides simultaneously, the second boundary `if` of `getUpdatedPoints`
overwrites the first, pinning the end exactly to `viewportExtent` and
putting the start at `viewportExtent - totalBoxModel` (which is `0` only
when `totalBoxModel = viewportExtent`); the computation is total and
returns this value. -/
theorem getUpdatedPoints_both_boundaries (startPoint endPoint totalBoxModel size : ℚ)
    (h₁ : startPoint < (totalBoxModel - (endPoint - startPoint)) / 2)
    (h₂ : size - endPoint < (totalBoxModel - (endPoint - startPoint)) / 2) :
    getUpdatedPoints startPoint endPoint totalBoxModel size
      = (size - totalBoxModel, size) := by
  simp only [getUpdatedPoints]
  rw [if_pos h₂, Prod.mk.injEq]
  exact ⟨by ring, rfl⟩

/-- Witness for `getUpdatedPoints_both_boundaries`, at the inputs arising
from the three-candidate degraded scenario. -/
theorem getUpdatedPoints_both_boundaries_witness :
    (0 : ℚ) < (68 - (22 - 0)) / 2 ∧ (10 : ℚ) - 22 < (68 - (22 - 0)) / 2
    ∧ getUpdatedPoints 0 22 68 10 = (10 - 68, 10) :=
  ⟨by norm_num, by norm_num,
    getUpdatedPoints_both_boundaries 0 22 68 10 (by norm_num) (by norm_num)⟩

/-- C4: the span returned by `getUpdatedPoints` satisfies
`end - start = totalBoxModel` in every branch; consequently the per-pair
`currentPadding` computed by `spreadTooltips` equals `spacing` exactly for
every cluster of at least two members, and is nonnegative whenever
`spacing` is. -/
theorem getUpdatedPoints_span_padding (s e t sz : ℚ)
    (tooltipArray : List TTooltipProps) (pixelRatio : ℚ)
    (positionProperties : TPositionPoperties) (spacing : ℚ) (seriesViewRect : Rect)
    (hlen : 2 ≤ tooltipArray.length) :
    (getUpdatedPoints s e t sz).2 - (getUpdatedPoints s e t sz).1 = t
    ∧ spreadPadding tooltipArray pixelRatio positionProperties spacing seriesViewRect = spacing
    ∧ (0 ≤ spacing →
        0 ≤ spreadPadding tooltipArray pixelRatio positionProperties spacing seriesViewRect) := by
  refine ⟨getUpdatedPoints_span s e t sz,
    spreadPadding_eq tooltipArray pixelRatio positionProperties spacing seriesViewRect hlen,
    fun hsp => ?_⟩
  rw [spreadPadding_eq tooltipArray pixelRatio positionProperties spacing seriesViewRect hlen]
  exact hsp

/-- Witness for `getUpdatedPoints_span_padding`: the degraded
narrow-viewport cluster still gets padding exactly 4. -/
theorem getUpdatedPoints_span_padding_witness :
    2 ≤ narrowCluster.length
    ∧ ((getUpdatedPoints 0 22 68 10).2 - (getUpdatedPoints 0 22 68 10).1 = 68
        ∧ spreadPadding narrowCluster 1 horizontalProps 4 viewRect10 = 4
        ∧ ((0 : ℚ) ≤ 4 → 0 ≤ spreadPadding narrowCluster 1 horizontalProps 4 viewRect10)) :=
  ⟨by norm_num [narrowCluster],
    getUpdatedPoints_span_padding 0 22 68 10 narrowCluster 1 horizontalProps 4 viewRect10
      (by norm_num [narrowCluster])⟩

/-- C6: one-sided boundary clamping.  If the ideal centered span would put
the start below 0 while the end side has enough room, the final start is
exactly 0 and the whole deficit is pushed to the end; symmetrically, if the
ideal centered end would exceed the viewport extent while the start side has
enough room, the final end is exactly the viewport extent and the deficit is
pushed to the start. -/
theorem getUpdatedPoints_one_sided_clamp (startPoint endPoint totalBoxModel size : ℚ) :
    (startPoint < (totalBoxModel - (endPoint - startPoint)) / 2
      → ¬ size - endPoint < (totalBoxModel - (endPoint - startPoint)) / 2
      → getUpdatedPoints startPoint endPoint totalBoxModel size
        = (0, endPoint + ((totalBoxModel - (endPoint - startPoint)) - startPoint)))
    ∧ (size - endPoint < (totalBoxModel - (endPoint - startPoint)) / 2
      → ¬ startPoint < (totalBoxModel - (endPoint - startPoint)) / 2
      → getUpdatedPoints startPoint endPoint totalBoxModel size
        = (startPoint - ((totalBoxModel - (endPoint - startPoint)) - (size - endPoint)), size)) := by
  constructor
  · intro h₁ h₂
    simp only [getUpdatedPoints]
    rw [if_neg h₂, if_pos h₁]
  · intro h₂ h₁
    simp only [getUpdatedPoints]
    rw [if_pos h₂]

/-- Witness for `getUpdatedPoints_one_sided_clamp`: a cluster whose ideal
centered start would be negative inside a large viewport is clamped to
start 0 (inputs from the idempotence counterexample's first pass). -/
theorem getUpdatedPoints_one_sided_clamp_witness :
    ((0 : ℚ) < (44 - (30 - 0)) / 2 ∧ ¬ (1000 : ℚ) - 30 < (44 - (30 - 0)) / 2)
    ∧ getUpdatedPoints 0 30 44 1000 = (0, 30 + ((44 - (30 - 0)) - 0)) :=
  ⟨⟨by norm_num, by norm_num⟩,
    (getUpdatedPoints_one_sided_clamp 0 30 44 1000).1 (by norm_num) (by norm_num)⟩

/-! ### Claim C9: overlap detection -/

/-- The gap the spec describes for an adjacent pair: the next tooltip's
leading edge minus the current tooltip's trailing edge. -/
def overlapGap (positionProperties : TPositionPoperties) (pixelRatio : ℚ)
    (a b : TTooltipProps) : ℚ :=
  (b.getCoord positionProperties.coordPropertyName
      + b.getShift positionProperties.shiftPropertyName * pixelRatio)
    - (a.getCoord positionProperties.coordPropertyName
        + a.getSize positionProperties.sizePropertyName
        + a.getShift positionProperties.shiftPropertyName * pixelRatio)

theorem checkHasOverlap_cons_cons (a b : TTooltipProps) (rest : List TTooltipProps)
    (spacing pixelRatio : ℚ) (positionProperties : TPositionPoperties) :
    checkHasOverlap (a :: b :: rest) spacing pixelRatio positionProperties
      = if overlapGap positionProperties pixelRatio a b < spacing then true
        else checkHasOverlap (b :: rest) spacing pixelRatio positionProperties := by
  simp only [checkHasOverlap, overlapGap]

theorem checkHasOverlap_eq_true_iff (tooltipArray : List TTooltipProps)
    (spacing pixelRatio : ℚ) (positionProperties : TPositionPoperties) :
    checkHasOverlap tooltipArray spacing pixelRatio positionProperties = true
      ↔ ∃ p ∈ tooltipArray.zip tooltipArray.tail,
          overlapGap positionProperties pixelRatio p.1 p.2 < spacing := by
  induction tooltipArray with
  | nil => simp [checkHasOverlap]
  | cons a rest ih =>
    cases rest with
    | nil => simp [checkHasOverlap]
    | cons b rest₂ =>
      rw [checkHasOverlap_cons_cons]
      by_cases h : overlapGap positionProperties pixelRatio a b < spacing
      · simp only [if_pos h, List.tail_cons, List.zip_cons_cons, List.mem_cons, true_iff]
        exact ⟨(a, b), Or.inl rfl, h⟩
      · rw [if_neg h, ih]
        simp only [List.tail_cons, List.zip_cons_cons, List.mem_cons]
        constructor
        · rintro ⟨p, hp, hlt⟩
          exact ⟨p, Or.inr hp, hlt⟩
        · rintro ⟨p, hp, hlt⟩
          rcases hp with hp | hp
          · subst hp
            exact absurd hlt h
          · exact ⟨p, hp, hlt⟩

/-- C9: `checkHasOverlap` returns true iff some adjacent pair `(i, i+1)` of
the given list has gap (next leading edge minus current trailing edge,
shifts scaled by `pixelRatio`) strictly below `spacing`; empty and
single-element lists never report an overlap. -/
theorem checkHasOverlap_spec (tooltipArray : List TTooltipProps)
    (spacing pixelRatio : ℚ) (positionProperties : TPositionPoperties) :
    (checkHasOverlap tooltipArray spacing pixelRatio positionProperties = true
      ↔ ∃ p ∈ tooltipArray.zip tooltipArray.tail,
          (p.2.getCoord positionProperties.coordPropertyName
              + p.2.getShift positionProperties.shiftPropertyName * pixelRatio)
            - (p.1.getCoord positionProperties.coordPropertyName
                + p.1.getSize positionProperties.sizePropertyName
                + p.1.getShift positionProperties.shiftPropertyName * pixelRatio)
          < spacing)
    ∧ (tooltipArray.length ≤ 1 →
        checkHasOverlap tooltipArray spacing pixelRatio positionProperties = false) := by
  constructor
  · simpa only [overlapGap] using
      checkHasOverlap_eq_true_iff tooltipArray spacing pixelRatio positionProperties
  · intro hlen
    cases tooltipArray with
    | nil => rfl
    | cons a rest =>
      cases rest with
      | nil => rfl
      | cons b rest₂ => simp at hlen

/-- Witness for `checkHasOverlap_spec`: a single-element list never
reports an overlap. -/
theorem checkHasOverlap_spec_witness :
    [mkCandidate 0 100 20 0].length ≤ 1
    ∧ checkHasOverlap [mkCandidate 0 100 20 0] 4 1 horizontalProps = false :=
  ⟨by decide,
    (checkHasOverlap_spec [mkCandidate 0 100 20 0] 4 1 horizontalProps).2 (by decide)⟩

/-! ### Claim C3: cluster partitioning -/

/-- Leading edge of a tooltip, as in `getStartPoint`. -/
def leadingEdge (positionProperties : TPositionPoperties) (pixelRatio : ℚ)
    (t : TTooltipProps) : ℚ :=
  getStartPoint (t.getCoord positionProperties.coordPropertyName)
    (t.getShift positionProperties.shiftPropertyName) pixelRatio

/-- Trailing edge of a tooltip, as in `getEndPoint`. -/
def trailingEdge (positionProperties : TPositionPoperties) (pixelRatio : ℚ)
    (t : TTooltipProps) : ℚ :=
  getEndPoint (t.getCoord positionProperties.coordPropertyName)
    (t.getShift positionProperties.shiftPropertyName) pixelRatio
    (t.getSize positionProperties.sizePropertyName)

/-- The greedy grouping of a (sorted) sequence, expressed by structural
recursion on consecutive pairs: a candidate joins the current cluster
exactly when its leading edge starts before the previous candidate's
trailing edge plus `spacing / pixelRatio` (the previous candidate is the
cluster's last member when the walk reaches the new one).  This is the
specification-level rendering of the loop of `splitIntoClusters`, with the
threshold the code actually uses. -/
def chainSplit (spacing pixelRatio : ℚ) (positionProperties : TPositionPoperties) :
    List TTooltipProps → List (List TTooltipProps)
  | [] => []
  | [t] => [[t]]
  | t :: u :: rest =>
    match chainSplit spacing pixelRatio positionProperties (u :: rest) with
    | [] => [[t]]
    | c :: cs =>
      if leadingEdge positionProperties pixelRatio u
          < trailingEdge positionProperties pixelRatio t + spacing / pixelRatio then
        (t :: c) :: cs
      else [t] :: c :: cs

/-- The amended specification of `splitIntoClusters`: stable-sort by
coordinate, then group greedily with threshold
`previous trailing edge + spacing / pixelRatio`. -/
def specSplitIntoClusters (tooltipArray : List TTooltipProps) (spacing pixelRatio : ℚ)
    (positionProperties : TPositionPoperties) : List (List TTooltipProps) :=
  chainSplit spacing pixelRatio positionProperties
    (tooltipArray.mergeSort (coordLe positionProperties))

/-- Modelled from the claim's words (not from the source): the grouping rule
claimed by the spec, identical to `chainSplit` except that the threshold
adds `minSpacing` itself (in device pixels) rather than
`minSpacing / pixelRatio`. -/
def claimChainSplit (spacing pixelRatio : ℚ) (positionProperties : TPositionPoperties) :
    List TTooltipProps → List (List TTooltipProps)
  | [] => []
  | [t] => [[t]]
  | t :: u :: rest =>
    match claimChainSplit spacing pixelRatio positionProperties (u :: rest) with
    | [] => [[t]]
    | c :: cs =>
      if leadingEdge positionProperties pixelRatio u
          < trailingEdge positionProperties pixelRatio t + spacing then
        (t :: c) :: cs
      else [t] :: c :: cs

/-- Modelled from the claim's words (not from the source): sort by
coordinate (stable), then group with threshold `trailing edge + minSpacing`. -/
def claimSplitIntoClusters (tooltipArray : List TTooltipProps) (spacing pixelRatio : ℚ)
    (positionProperties : TPositionPoperties) : List (List TTooltipProps) :=
  claimChainSplit spacing pixelRatio positionProperties
    (tooltipArray.mergeSort (coordLe positionProperties))

theorem chainSplit_cons (spacing pixelRatio : ℚ) (positionProperties : TPositionPoperties)
    (u : TTooltipProps) (rest : List TTooltipProps) :
    ∃ c cs, chainSplit spacing pixelRatio positionProperties (u :: rest)
      = (u :: c) :: cs := by
  induction rest generalizing u with
  | nil => exact ⟨[], [], rfl⟩
  | cons v rest₂ ih =>
    obtain ⟨c, cs, hc⟩ := ih v
    by_cases h : leadingEdge positionProperties pixelRatio v
        < trailingEdge positionProperties pixelRatio u + spacing / pixelRatio
    · exact ⟨v :: c, cs, by rw [chainSplit, hc]; dsimp only; rw [if_pos h]⟩
    · exact ⟨[], (v :: c) :: cs, by rw [chainSplit, hc]; dsimp only; rw [if_neg h]⟩

/-- The loop of `splitIntoClusters` with a nonempty current cluster ending
in `t` produces the clusters already emitted, the current cluster extended
by the head chunk of the remaining chain, then the remaining chunks. -/
theorem clusterLoop_eq_chainSplit (spacing pixelRatio : ℚ)
    (positionProperties : TPositionPoperties) :
    ∀ (l : List TTooltipProps) (acc : List (List TTooltipProps))
      (cl : List TTooltipProps) (t : TTooltipProps)
      (c : List TTooltipProps) (cs : List (List TTooltipProps)),
      chainSplit spacing pixelRatio positionProperties (t :: l) = (t :: c) :: cs →
      clusterLoop spacing pixelRatio positionProperties acc (cl ++ [t]) l
        = acc ++ (cl ++ t :: c) :: cs := by
  intro l
  induction l with
  | nil =>
    intro acc cl t c cs hc
    rw [chainSplit] at hc
    obtain ⟨hc1, hc2⟩ : t :: c = [t] ∧ cs = [] := by
      constructor
      · exact (List.cons.injEq _ _ _ _).mp (List.cons.injEq _ _ _ _ |>.mp hc |>.1) |> fun h => by
          rw [← (List.cons.injEq _ _ _ _ |>.mp hc).1]
      · exact (List.cons.injEq _ _ _ _ |>.mp hc).2.symm
    have hcnil : c = [] := by
      cases hc1
      rfl
    subst hcnil
    have hcs : cs = [] := hc2
    subst hcs
    simp [clusterLoop]
  | cons u rest ih =>
    intro acc cl t c cs hc
    obtain ⟨c₂, cs₂, hc₂⟩ := chainSplit_cons spacing pixelRatio positionProperties u rest
    rw [chainSplit, hc₂] at hc
    dsimp only at hc
    have hlast : (cl ++ [t]).getLastD default = t := List.getLastD_concat _ _ _
    have hne : ¬ (cl ++ [t]).length = 0 := by simp
    by_cases h : leadingEdge positionProperties pixelRatio u
        < trailingEdge positionProperties pixelRatio t + spacing / pixelRatio
    · rw [if_pos h] at hc
      obtain ⟨hcc, hcs⟩ := (List.cons.injEq _ _ _ _).mp hc
      have hcc₂ : c = u :: c₂ := by
        have := (List.cons.injEq _ _ _ _).mp hcc
        exact this.2.symm
      subst hcc₂
      subst hcs
      rw [clusterLoop]
      rw [if_neg hne]
      simp only [hlast]
      rw [if_pos (by simpa [leadingEdge, trailingEdge, getStartPoint, getEndPoint] using h)]
      have := ih acc (cl ++ [t]) u c₂ cs₂ hc₂
      rw [List.append_assoc] at this
      simpa using this
    · rw [if_neg h] at hc
      obtain ⟨hcc, hcs⟩ := (List.cons.injEq _ _ _ _).mp hc
      have hcnil : c = [] := by
        have := (List.cons.injEq _ _ _ _).mp hcc
        exact this.2.symm
      subst hcnil
      subst hcs
      rw [clusterLoop]
      rw [if_neg hne]
      simp only [hlast]
      rw [if_neg (by simpa [leadingEdge, trailingEdge, getStartPoint, getEndPoint] using h)]
      have := ih (acc ++ [cl ++ [t]]) [] u c₂ cs₂ hc₂
      simpa using this

/-- C3 (amended): `splitIntoClusters` equals the specification-level
greedy partition `specSplitIntoClusters` — stable sort by coordinate
ascending, then group a candidate into the current cluster exactly when its
leading edge (`coord + shift * pixelRatio`) starts before the cluster's
last member's trailing edge plus `spacing / pixelRatio` (not plus
`spacing`). -/
theorem splitIntoClusters_eq_spec (tooltipArray : List TTooltipProps)
    (spacing pixelRatio : ℚ) (positionProperties : TPositionPoperties) :
    splitIntoClusters tooltipArray spacing pixelRatio positionProperties
      = specSplitIntoClusters tooltipArray spacing pixelRatio positionProperties := by
  unfold splitIntoClusters specSplitIntoClusters
  cases hs : tooltipArray.mergeSort (coordLe positionProperties) with
  | nil => rfl
  | cons t rest =>
    obtain ⟨c, cs, hc⟩ := chainSplit_cons spacing pixelRatio positionProperties t rest
    rw [hc]
    have hstep : clusterLoop spacing pixelRatio positionProperties [] [] (t :: rest)
        = clusterLoop spacing pixelRatio positionProperties [] ([] ++ [t]) rest := by
      rw [clusterLoop]
      rw [if_pos (show (([] : List TTooltipProps)).length = 0 from rfl)]
    rw [hstep, clusterLoop_eq_chainSplit spacing pixelRatio positionProperties rest [] [] t c cs hc]
    simp

/-- C3 (counterexample): with `pixelRatio` = 2 and `spacing` = 4, two
candidates at coordinates 0 and 13 (sizes 10, no shift) end up in two
separate clusters — the code's threshold is
`trailing edge + spacing / pixelRatio` = 12 — whereas the claim's rule
(`trailing edge + spacing` = 14) would group them into one cluster. -/
theorem splitIntoClusters_claim_counterexample :
    splitIntoClusters [mkCandidate 0 0 10 0, mkCandidate 1 13 10 0] 4 2 horizontalProps
        = [[mkCandidate 0 0 10 0], [mkCandidate 1 13 10 0]]
    ∧ claimSplitIntoClusters [mkCandidate 0 0 10 0, mkCandidate 1 13 10 0] 4 2 horizontalProps
        = [[mkCandidate 0 0 10 0, mkCandidate 1 13 10 0]]
    ∧ splitIntoClusters [mkCandidate 0 0 10 0, mkCandidate 1 13 10 0] 4 2 horizontalProps
        ≠ claimSplitIntoClusters [mkCandidate 0 0 10 0, mkCandidate 1 13 10 0] 4 2 horizontalProps :=
  ⟨of_decide_eq_true (by with_unfolding_all rfl),
    of_decide_eq_true (by with_unfolding_all rfl),
    of_decide_eq_true (by with_unfolding_all rfl)⟩

/-! ### Claim C1: the spread leaves exactly `spacing` between neighbours -/

/-- The cursor position of the spread walk before the `i`-th member:
start point plus the sizes and paddings of the previous members. -/
def foldPos (positionProperties : TPositionPoperties) (currentPadding p : ℚ)
    (c : List TTooltipProps) (i : ℕ) : ℚ :=
  p + ((c.take i).map
    (fun t => t.getSize positionProperties.sizePropertyName + currentPadding)).sum

theorem foldPos_zero (positionProperties : TPositionPoperties) (pad p : ℚ)
    (c : List TTooltipProps) : foldPos positionProperties pad p c 0 = p := by
  simp [foldPos]

theorem foldPos_cons_succ (positionProperties : TPositionPoperties) (pad p : ℚ)
    (t : TTooltipProps) (c : List TTooltipProps) (i : ℕ) :
    foldPos positionProperties pad p (t :: c) (i + 1)
      = foldPos positionProperties pad
          (p + t.getSize positionProperties.sizePropertyName + pad) c i := by
  simp only [foldPos, List.take_succ_cons, List.map_cons, List.sum_cons]
  ring

theorem foldPos_succ (positionProperties : TPositionPoperties) (pad p : ℚ)
    (c : List TTooltipProps) (i : ℕ) (h : i < c.length) :
    foldPos positionProperties pad p c (i + 1)
      = foldPos positionProperties pad p c i
        + ((c.get ⟨i, h⟩).getSize positionProperties.sizePropertyName + pad) := by
  simp only [foldPos, List.map_take]
  rw [List.sum_take_succ _ i (by simpa using h)]
  simp only [List.getElem_map, add_assoc, List.get_eq_getElem]

theorem foldl_spreadStep_get_notMem (positionProperties : TPositionPoperties)
    (pixelRatio pad : ℚ) :
    ∀ (c : List TTooltipProps) (p : ℚ) (m : ShiftMap) (k : Int),
      (∀ t ∈ c, t.index ≠ k) →
      mapGet (c.foldl (spreadStep positionProperties pixelRatio pad) (p, m)).2 k
        = mapGet m k := by
  intro c
  induction c with
  | nil => intro p m k _; rfl
  | cons t rest ih =>
    intro p m k hk
    rw [List.foldl_cons]
    rw [ih _ _ k (fun u hu => hk u (List.mem_cons_of_mem t hu))]
    exact mapGet_mapSet_ne m t.index k _ (hk t (List.mem_cons_self t rest))

theorem foldl_spreadStep_lookup (positionProperties : TPositionPoperties)
    (pixelRatio pad : ℚ) :
    ∀ (c : List TTooltipProps) (p : ℚ) (m : ShiftMap),
      (c.map (fun t => t.index)).Nodup →
      ∀ (i : ℕ) (h : i < c.length),
      mapGet (c.foldl (spreadStep positionProperties pixelRatio pad) (p, m)).2
          ((c.get ⟨i, h⟩).index)
        = some ((foldPos positionProperties pad p c i
            - (c.get ⟨i, h⟩).getCoord positionProperties.coordPropertyName) / pixelRatio) := by
  intro c
  induction c with
  | nil =>
    intro p m _ i h
    exact absurd h (by simp)
  | cons t rest ih =>
    intro p m hnd i h
    have hnd₂ := hnd
    rw [List.map_cons, List.nodup_cons] at hnd₂
    cases i with
    | zero =>
      rw [List.foldl_cons]
      have hne : ∀ u ∈ rest, u.index ≠ ((t :: rest).get ⟨0, h⟩).index := by
        intro u hu heq
        exact hnd₂.1 (heq ▸ List.mem_map_of_mem (fun t => t.index) hu)
      rw [foldl_spreadStep_get_notMem positionProperties pixelRatio pad rest _ _ _ hne]
      simp only [spreadStep, List.get_cons_zero, foldPos_zero]
      exact mapGet_mapSet_self m t.index _
    | succ i =>
      rw [List.foldl_cons]
      have hlt : i < rest.length := by simpa using h
      have := ih (p + t.getSize positionProperties.sizePropertyName + pad)
        (mapSet m t.index
          ((p - t.getCoord positionProperties.coordPropertyName) / pixelRatio))
        hnd₂.2 i hlt
      rw [foldPos_cons_succ]
      simpa [spreadStep] using this

/-- The gaps between consecutive elements of a list: next leading edge minus
previous trailing edge. -/
def adjacentGaps (positionProperties : TPositionPoperties) (pixelRatio : ℚ) :
    List TTooltipProps → List ℚ
  | a :: b :: rest =>
    (leadingEdge positionProperties pixelRatio b
        - trailingEdge positionProperties pixelRatio a)
      :: adjacentGaps positionProperties pixelRatio (b :: rest)
  | _ => []

theorem adjacentGaps_mem (positionProperties : TPositionPoperties) (pixelRatio : ℚ) :
    ∀ (l : List TTooltipProps) (g : ℚ), g ∈ adjacentGaps positionProperties pixelRatio l →
      ∃ (i : ℕ) (h : i + 1 < l.length),
        g = leadingEdge positionProperties pixelRatio (l.get ⟨i + 1, h⟩)
          - trailingEdge positionProperties pixelRatio (l.get ⟨i, Nat.lt_of_succ_lt h⟩) := by
  intro l
  induction l with
  | nil => intro g hg; exact absurd hg (by simp [adjacentGaps])
  | cons a rest ih =>
    intro g hg
    cases rest with
    | nil => exact absurd hg (by simp [adjacentGaps])
    | cons b rest₂ =>
      rw [adjacentGaps, List.mem_cons] at hg
      rcases hg with hg | hg
      · exact ⟨0, by simp, by simpa using hg⟩
      · obtain ⟨i, hi, hgi⟩ := ih g hg
        exact ⟨i + 1, by simpa using hi, by simpa using hgi⟩

theorem applyShiftMap_get (positionProperties : TPositionPoperties) (m : ShiftMap)
    (l : List TTooltipProps) (i : ℕ) (h : i < l.length) :
    (applyShiftMap positionProperties m l).get ⟨i, by simpa [applyShiftMap] using h⟩
      = (match mapGet m ((l.get ⟨i, h⟩).index) with
        | some v => (l.get ⟨i, h⟩).setShift positionProperties.shiftPropertyName v
        | none => l.get ⟨i, h⟩) := by
  simp [applyShiftMap]

/-- C1: after `spreadTooltips` computes the index-to-shift map of a cluster
of at least two candidates (sorted by coordinate, viewport wide enough for
`totalBoxModel`, positive pixel ratio, distinct indices) and the shifts are
applied, every adjacent gap is at least `spacing` — indeed every adjacent
gap equals `spacing` exactly. -/
theorem spreadTooltips_no_overlap (cluster : List TTooltipProps)
    (positionProperties : TPositionPoperties) (spacing : ℚ) (seriesViewRect : Rect)
    (pixelRatio : ℚ) (hlen : 2 ≤ cluster.length) (hpr : 0 < pixelRatio)
    (hidx : (cluster.map (fun t => t.index)).Nodup)
    (hsorted : cluster.Pairwise (fun a b =>
      a.getCoord positionProperties.coordPropertyName
        ≤ b.getCoord positionProperties.coordPropertyName))
    (hwide : totalBoxModel cluster positionProperties spacing
      ≤ seriesViewRect.get positionProperties.sizePropertyName) :
    (∀ g ∈ adjacentGaps positionProperties pixelRatio
        (applyShiftMap positionProperties
          (spreadTooltips cluster pixelRatio positionProperties spacing seriesViewRect)
          cluster),
      spacing ≤ g)
    ∧ (∀ g ∈ adjacentGaps positionProperties pixelRatio
        (applyShiftMap positionProperties
          (spreadTooltips cluster pixelRatio positionProperties spacing seriesViewRect)
          cluster),
      g = spacing) := by
  have hmain : ∀ g ∈ adjacentGaps positionProperties pixelRatio
      (applyShiftMap positionProperties
        (spreadTooltips cluster pixelRatio positionProperties spacing seriesViewRect)
        cluster),
      g = spacing := by
    intro g hg
    obtain ⟨i, hi, hgi⟩ := adjacentGaps_mem positionProperties pixelRatio _ g hg
    have hlen₂ : (applyShiftMap positionProperties
        (spreadTooltips cluster pixelRatio positionProperties spacing seriesViewRect)
        cluster).length = cluster.length := by
      simp [applyShiftMap]
    have hi₁ : i + 1 < cluster.length := by rwa [hlen₂] at hi
    have hi₀ : i < cluster.length := Nat.lt_of_succ_lt hi₁
    set pad := spreadPadding cluster pixelRatio positionProperties spacing seriesViewRect
      with hpad
    set p₀ := (spreadUpdatedPoints cluster pixelRatio positionProperties spacing
      seriesViewRect).1 with hp₀
    have hspread : spreadTooltips cluster pixelRatio positionProperties spacing seriesViewRect
        = (cluster.foldl (spreadStep positionProperties pixelRatio pad)
            (p₀, ([] : List (Int × ℚ)))).2 := by
      rw [spreadTooltips]
    have hlook : ∀ (j : ℕ) (hj : j < cluster.length),
        mapGet (spreadTooltips cluster pixelRatio positionProperties spacing seriesViewRect)
            ((cluster.get ⟨j, hj⟩).index)
          = some ((foldPos positionProperties pad p₀ cluster j
              - (cluster.get ⟨j, hj⟩).getCoord positionProperties.coordPropertyName)
            / pixelRatio) := by
      intro j hj
      rw [hspread]
      exact foldl_spreadStep_lookup positionProperties pixelRatio pad cluster p₀ [] hidx j hj
    have happly : ∀ (j : ℕ) (hj : j < cluster.length),
        (applyShiftMap positionProperties
            (spreadTooltips cluster pixelRatio positionProperties spacing seriesViewRect)
            cluster).get ⟨j, by rwa [hlen₂]⟩
          = (cluster.get ⟨j, hj⟩).setShift positionProperties.shiftPropertyName
              ((foldPos positionProperties pad p₀ cluster j
                - (cluster.get ⟨j, hj⟩).getCoord positionProperties.coordPropertyName)
              / pixelRatio) := by
      intro j hj
      rw [applyShiftMap_get positionProperties _ cluster j hj, hlook j hj]
    have hprne : pixelRatio ≠ 0 := ne_of_gt hpr
    have hedge : ∀ (j : ℕ) (hj : j < cluster.length),
        leadingEdge positionProperties pixelRatio
            ((applyShiftMap positionProperties
              (spreadTooltips cluster pixelRatio positionProperties spacing seriesViewRect)
              cluster).get ⟨j, by rwa [hlen₂]⟩)
          = foldPos positionProperties pad p₀ cluster j := by
      intro j hj
      rw [happly j hj]
      simp only [leadingEdge, getStartPoint, getCoord_setShift, getShift_setShift_self]
      field_simp
    have htrail : ∀ (j : ℕ) (hj : j < cluster.length),
        trailingEdge positionProperties pixelRatio
            ((applyShiftMap positionProperties
              (spreadTooltips cluster pixelRatio positionProperties spacing seriesViewRect)
              cluster).get ⟨j, by rwa [hlen₂]⟩)
          = foldPos positionProperties pad p₀ cluster j
            + (cluster.get ⟨j, hj⟩).getSize positionProperties.sizePropertyName := by
      intro j hj
      rw [happly j hj]
      simp only [trailingEdge, getEndPoint, getCoord_setShift, getShift_setShift_self,
        getSize_setShift]
      field_simp
    rw [hgi]
    have hg₁ := hedge (i + 1) hi₁
    have hg₀ := htrail i hi₀
    have hfin : (⟨i + 1, hi⟩ : Fin (applyShiftMap positionProperties
        (spreadTooltips cluster pixelRatio positionProperties spacing seriesViewRect)
        cluster).length) = ⟨i + 1, by rwa [hlen₂]⟩ := rfl
    rw [hg₁, hg₀]
    rw [foldPos_succ positionProperties pad p₀ cluster i hi₀]
    rw [hpad, spreadPadding_eq cluster pixelRatio positionProperties spacing seriesViewRect hlen]
    ring
  exact ⟨fun g hg => le_of_eq (hmain g hg).symm, hmain⟩

/-- Witness for `spreadTooltips_no_overlap`: the spec's concrete
two-candidate scenario (`yCoord` 100 and 105, heights 20, `spacing` 4,
`pixelRatio` 1, viewport 300): every resulting adjacent gap equals 4. -/
theorem spreadTooltips_no_overlap_witness :
    2 ≤ pairCluster.length
    ∧ ((∀ g ∈ adjacentGaps horizontalProps 1
          (applyShiftMap horizontalProps
            (spreadTooltips pairCluster 1 horizontalProps 4 viewRect300) pairCluster),
        (4 : ℚ) ≤ g)
      ∧ (∀ g ∈ adjacentGaps horizontalProps 1
          (applyShiftMap horizontalProps
            (spreadTooltips pairCluster 1 horizontalProps 4 viewRect300) pairCluster),
        g = (4 : ℚ))) :=
  ⟨by decide,
    spreadTooltips_no_overlap pairCluster horizontalProps 4 viewRect300 1
      (by decide) (by norm_num)
      (of_decide_eq_true (by with_unfolding_all rfl))
      (of_decide_eq_true (by with_unfolding_all rfl))
      (of_decide_eq_true (by with_unfolding_all rfl))⟩

/-! ### Claims C5, C7 and C10: the top-level entry point -/

theorem centeredArray_length (tooltipArray : List TTooltipProps) (pixelRatio : ℚ)
    (isVerticalChart : Bool) :
    (centeredArray tooltipArray pixelRatio isVerticalChart).length
      = tooltipArray.length := by
  unfold centeredArray
  split
  · simp
  · rfl

/-- C7: when `allowOverlap` is true (or fewer than two candidates, or no
overlap is detected on the pre-centered array), `calcTooltipPositions`
returns the candidates with only the step-2 vertical-centering shifts: on a
vertical chart every candidate whose `xCoord` exceeds `width / 2 /
pixelRatio` gets `xCoordShift = -(width/2)/pixelRatio`, and every other
candidate (and every candidate of a horizontal chart) is returned
unchanged. -/
theorem calcTooltipPositions_bypass (tooltipArray : List TTooltipProps)
    (allowTooltipOverlapping : Bool) (spacing : ℚ) (seriesViewRect : Rect)
    (pixelRatio : ℚ) (isVerticalChart : Bool)
    (h : allowTooltipOverlapping = true ∨ tooltipArray.length < 2 ∨
      checkHasOverlap (centeredArray tooltipArray pixelRatio isVerticalChart)
        spacing pixelRatio (getTooltipPositionProperties isVerticalChart) = false) :
    calcTooltipPositions tooltipArray allowTooltipOverlapping spacing seriesViewRect
        pixelRatio isVerticalChart
      = tooltipArray.map (fun t =>
          if isVerticalChart = true ∧ t.xCoord > t.width / 2 / pixelRatio then
            t.setShift EShift.xCoordShift (-(t.width / 2) / pixelRatio)
          else t) := by
  have hguard : (!allowTooltipOverlapping
      && decide (2 ≤ (centeredArray tooltipArray pixelRatio isVerticalChart).length)
      && checkHasOverlap (centeredArray tooltipArray pixelRatio isVerticalChart)
          spacing pixelRatio (getTooltipPositionProperties isVerticalChart)) = false := by
    rcases h with h | h | h
    · rw [h]
      rfl
    · have hlt : ¬ 2 ≤ (centeredArray tooltipArray pixelRatio isVerticalChart).length := by
        rw [centeredArray_length]
        omega
      simp [hlt]
    · rw [h]
      simp
  have hcalc : calcTooltipPositions tooltipArray allowTooltipOverlapping spacing
      seriesViewRect pixelRatio isVerticalChart
      = centeredArray tooltipArray pixelRatio isVerticalChart := by
    simp only [calcTooltipPositions]
    rw [hguard]
    simp
  rw [hcalc]
  unfold centeredArray
  cases isVerticalChart with
  | false =>
    simp
  | true =>
    refine List.map_congr_left ?_
    intro t _
    simp only [centerTooltip, getTooltipPositionProperties, if_pos rfl, true_and]
    rfl

/-- Witness for `calcTooltipPositions_bypass`: with `allowOverlap = true`
and a vertical chart, two heavily overlapping candidates keep their step-2
centering shifts only. -/
theorem calcTooltipPositions_bypass_witness :
    ((true : Bool) = true ∨ pairCluster.length < 2 ∨
      checkHasOverlap (centeredArray pairCluster 1 true) 4 1
        (getTooltipPositionProperties true) = false)
    ∧ calcTooltipPositions pairCluster true 4 viewRect300 1 true
      = pairCluster.map (fun t =>
          if (true : Bool) = true ∧ t.xCoord > t.width / 2 / 1 then
            t.setShift EShift.xCoordShift (-(t.width / 2) / 1)
          else t) :=
  ⟨Or.inl rfl, calcTooltipPositions_bypass pairCluster true 4 viewRect300 1 true (Or.inl rfl)⟩

/-- C5 (amended): a second call of `calcTooltipPositions` on the output of
a first call is a no-op provided `checkHasOverlap` reports no overlap on
that output (horizontal chart, so no re-centering pass interferes); the
claimed unconditional idempotence fails, see
`calcTooltipPositions_not_idempotent`. -/
theorem calcTooltipPositions_second_pass_noop (tooltipArray : List TTooltipProps)
    (allowTooltipOverlapping : Bool) (spacing : ℚ) (seriesViewRect : Rect)
    (pixelRatio : ℚ)
    (h : checkHasOverlap
        (calcTooltipPositions tooltipArray allowTooltipOverlapping spacing
          seriesViewRect pixelRatio false)
        spacing pixelRatio (getTooltipPositionProperties false) = false) :
    calcTooltipPositions
        (calcTooltipPositions tooltipArray allowTooltipOverlapping spacing
          seriesViewRect pixelRatio false)
        allowTooltipOverlapping spacing seriesViewRect pixelRatio false
      = calcTooltipPositions tooltipArray allowTooltipOverlapping spacing
          seriesViewRect pixelRatio false := by
  have key : ∀ (l : List TTooltipProps),
      checkHasOverlap l spacing pixelRatio (getTooltipPositionProperties false) = false →
      calcTooltipPositions l allowTooltipOverlapping spacing seriesViewRect pixelRatio false
        = l := by
    intro l hl
    have hc : centeredArray l pixelRatio false = l := rfl
    simp only [calcTooltipPositions, hc, hl]
    simp
  exact key _ h

/-- The two far-apart candidates used in the `C5` witness. -/
def farPair : List TTooltipProps :=
  [mkCandidate 0 0 20 0, mkCandidate 1 100 20 0]

/-- Witness for `calcTooltipPositions_second_pass_noop`: two candidates 80
device pixels apart stay untouched by a first pass, and the second pass is
a no-op. -/
theorem calcTooltipPositions_second_pass_noop_witness :
    checkHasOverlap (calcTooltipPositions farPair false 4 viewRect300 1 false)
        4 1 (getTooltipPositionProperties false) = false
    ∧ calcTooltipPositions (calcTooltipPositions farPair false 4 viewRect300 1 false)
        false 4 viewRect300 1 false
      = calcTooltipPositions farPair false 4 viewRect300 1 false :=
  ⟨of_decide_eq_true (by with_unfolding_all rfl),
    calcTooltipPositions_second_pass_noop farPair false 4 viewRect300 1
      (of_decide_eq_true (by with_unfolding_all rfl))⟩

/-- The three candidates of the idempotence counterexample:
`yCoord` 0, 10, 36, all of height 20, `spacing` 4, `pixelRatio` 1. -/
def threeCluster : List TTooltipProps :=
  [mkCandidate 0 0 20 0, mkCandidate 1 10 20 0, mkCandidate 2 36 20 0]

/-- C5 (counterexample): `calcTooltipPositions` is not idempotent.  The
first pass spreads the cluster {0, 10} to shifts `[0, 14, 0]`, pushing the
second tooltip onto the third; the second pass then detects the new overlap
and produces the different shifts `[0, 8, 6]`. -/
theorem calcTooltipPositions_not_idempotent :
    (calcTooltipPositions threeCluster false 4 viewRect1000 1 false).map
        (fun t => t.yCoordShift) = [0, 14, 0]
    ∧ (calcTooltipPositions
          (calcTooltipPositions threeCluster false 4 viewRect1000 1 false)
          false 4 viewRect1000 1 false).map (fun t => t.yCoordShift) = [0, 8, 6]
    ∧ calcTooltipPositions
          (calcTooltipPositions threeCluster false 4 viewRect1000 1 false)
          false 4 viewRect1000 1 false
        ≠ calcTooltipPositions threeCluster false 4 viewRect1000 1 false :=
  ⟨of_decide_eq_true (by with_unfolding_all rfl),
    of_decide_eq_true (by with_unfolding_all rfl),
    of_decide_eq_true (by with_unfolding_all rfl)⟩

theorem map_setShift_zero_centeredArray (tooltipArray : List TTooltipProps)
    (pixelRatio : ℚ) (isVerticalChart : Bool) :
    (centeredArray tooltipArray pixelRatio isVerticalChart).map
        (fun t => t.setShift
          (getTooltipPositionProperties isVerticalChart).shiftPropertyName 0)
      = tooltipArray.map
        (fun t => t.setShift
          (getTooltipPositionProperties isVerticalChart).shiftPropertyName 0) := by
  unfold centeredArray
  cases isVerticalChart with
  | false => rfl
  | true =>
    rw [if_pos rfl, List.map_map]
    refine List.map_congr_left ?_
    intro t _
    simp only [Function.comp_apply, centerTooltip]
    split
    · rw [setShift_setShift]
    · rfl

theorem map_setShift_zero_applyShiftMap (positionProperties : TPositionPoperties)
    (m : ShiftMap) (l : List TTooltipProps) :
    (applyShiftMap positionProperties m l).map
        (fun t => t.setShift positionProperties.shiftPropertyName 0)
      = l.map (fun t => t.setShift positionProperties.shiftPropertyName 0) := by
  unfold applyShiftMap
  rw [List.map_map]
  refine List.map_congr_left ?_
  intro t _
  simp only [Function.comp_apply]
  cases hm : mapGet m t.index with
  | some v => rw [setShift_setShift]
  | none => rfl

/-- C10: `calcTooltipPositions` returns the candidates in the same order
and may change only the orientation-selected shift field: zeroing that
field in the result gives exactly the input with that field zeroed (every
other field — index, values, coordinates, sizes, series payload — is
untouched).  `spreadTooltips` itself returns only an index-to-shift map
and leaves the candidates alone by construction. -/
theorem calcTooltipPositions_frame (tooltipArray : List TTooltipProps)
    (allowTooltipOverlapping : Bool) (spacing : ℚ) (seriesViewRect : Rect)
    (pixelRatio : ℚ) (isVerticalChart : Bool) :
    (calcTooltipPositions tooltipArray allowTooltipOverlapping spacing seriesViewRect
        pixelRatio isVerticalChart).map
        (fun t => t.setShift
          (getTooltipPositionProperties isVerticalChart).shiftPropertyName 0)
      = tooltipArray.map
        (fun t => t.setShift
          (getTooltipPositionProperties isVerticalChart).shiftPropertyName 0) := by
  simp only [calcTooltipPositions]
  split
  · rw [map_setShift_zero_applyShiftMap, map_setShift_zero_centeredArray]
  · rw [map_setShift_zero_centeredArray]

/-! ### Claim C8: order independence of the index-to-shift assignment -/

/-- The final shift of the candidate with the given index (selector for the
horizontal-chart shift field), used to compare results keyed by index. -/
def shiftOfIndex (l : List TTooltipProps) (i : Int) : Option ℚ :=
  (l.find? (fun t => t.index == i)).map (fun t => t.yCoordShift)

/-- Two candidates sharing `yCoord` 100 (a coordinate tie). -/
def tiePair : List TTooltipProps := [mkCandidate 0 100 20 0, mkCandidate 1 100 10 0]

/-- The tie pair in the opposite order. -/
def tiePairRev : List TTooltipProps := [mkCandidate 1 100 10 0, mkCandidate 0 100 20 0]

/-- Two candidates with distinct coordinates whose overlap detection is
order-sensitive: the first has shift 10 (zero size), so in one order the
adjacent pair looks separated and in the other it does not. -/
def gatePair : List TTooltipProps := [mkCandidate 0 0 0 10, mkCandidate 1 1 0 0]

/-- The gate pair in the opposite order. -/
def gatePairRev : List TTooltipProps := [mkCandidate 1 1 0 0, mkCandidate 0 0 0 10]

/-- C8 (counterexample): shuffling the candidate array changes the shift
assigned to index 0.  First conjunct: a coordinate tie makes the stable
sort order — hence the spread order — depend on the input order.  Second
conjunct: with distinct coordinates, `checkHasOverlap` walks the array in
the caller's order, so one order detects an overlap (and spreads) while
the other does not. -/
theorem calcTooltipPositions_order_dependent_counterexample :
    shiftOfIndex (calcTooltipPositions tiePair false 4 viewRect300 1 false) 0
        ≠ shiftOfIndex (calcTooltipPositions tiePairRev false 4 viewRect300 1 false) 0
    ∧ shiftOfIndex (calcTooltipPositions gatePair false 2 viewRect300 1 false) 0
        ≠ shiftOfIndex (calcTooltipPositions gatePairRev false 2 viewRect300 1 false) 0 :=
  ⟨of_decide_eq_true (by with_unfolding_all rfl),
    of_decide_eq_true (by with_unfolding_all rfl)⟩

theorem index_centerTooltip (pixelRatio : ℚ) (positionProperties : TPositionPoperties)
    (t : TTooltipProps) :
    (centerTooltip pixelRatio positionProperties t).index = t.index := by
  simp only [centerTooltip]
  split
  · exact index_setShift t _ _
  · rfl

theorem getCoord_centerTooltip (pixelRatio : ℚ) (positionProperties : TPositionPoperties)
    (t : TTooltipProps) (c : ECoord) :
    (centerTooltip pixelRatio positionProperties t).getCoord c = t.getCoord c := by
  simp only [centerTooltip]
  split
  · exact getCoord_setShift t _ _ c
  · rfl

theorem map_index_centeredArray (tooltipArray : List TTooltipProps) (pixelRatio : ℚ)
    (isVerticalChart : Bool) :
    (centeredArray tooltipArray pixelRatio isVerticalChart).map (fun t => t.index)
      = tooltipArray.map (fun t => t.index) := by
  unfold centeredArray
  cases isVerticalChart with
  | false => rfl
  | true =>
    rw [if_pos rfl, List.map_map]
    refine List.map_congr_left ?_
    intro t _
    simp [Function.comp_apply, index_centerTooltip]

theorem map_getCoord_centeredArray (tooltipArray : List TTooltipProps) (pixelRatio : ℚ)
    (isVerticalChart : Bool) (c : ECoord) :
    (centeredArray tooltipArray pixelRatio isVerticalChart).map (fun t => t.getCoord c)
      = tooltipArray.map (fun t => t.getCoord c) := by
  unfold centeredArray
  cases isVerticalChart with
  | false => rfl
  | true =>
    rw [if_pos rfl, List.map_map]
    refine List.map_congr_left ?_
    intro t _
    simp [Function.comp_apply, getCoord_centerTooltip]

/-- Two permutations of the same list that are both sorted by an injective
rational key are equal. -/
theorem eq_of_perm_of_pairwise_key {α : Type} (key : α → ℚ) :
    ∀ (l₁ l₂ : List α), l₁.Perm l₂ →
      l₁.Pairwise (fun a b => key a ≤ key b) →
      l₂.Pairwise (fun a b => key a ≤ key b) →
      (l₁.map key).Nodup → l₁ = l₂ := by
  intro l₁
  induction l₁ with
  | nil =>
    intro l₂ hp _ _ _
    exact hp.nil_eq
  | cons a t₁ ih =>
    intro l₂ hp hs₁ hs₂ hnd
    cases l₂ with
    | nil => exact absurd hp.symm.nil_eq (by simp)
    | cons b t₂ =>
      by_cases hab : a = b
      · subst hab
        have ht : t₁.Perm t₂ := hp.cons_inv
        have hmapnd : (t₁.map key).Nodup := by
          rw [List.map_cons, List.nodup_cons] at hnd
          exact hnd.2
        rw [ih t₂ ht (List.pairwise_cons.mp hs₁).2 (List.pairwise_cons.mp hs₂).2 hmapnd]
      · have ha : a ∈ b :: t₂ := hp.mem_iff.mp (List.mem_cons_self a t₁)
        have hb : b ∈ a :: t₁ := hp.mem_iff.mpr (List.mem_cons_self b t₂)
        have ha₂ : a ∈ t₂ := by
          rcases List.mem_cons.mp ha with h | h
          · exact absurd h hab
          · exact h
        have hb₁ : b ∈ t₁ := by
          rcases List.mem_cons.mp hb with h | h
          · exact absurd h.symm hab
          · exact h
        have hk : key a = key b :=
          le_antisymm ((List.pairwise_cons.mp hs₁).1 b hb₁)
            ((List.pairwise_cons.mp hs₂).1 a ha₂)
        rw [List.map_cons, List.nodup_cons] at hnd
        exact absurd (hk ▸ List.mem_map_of_mem key hb₁) hnd.1

theorem mergeSort_coordLe_sorted (positionProperties : TPositionPoperties)
    (l : List TTooltipProps) :
    (l.mergeSort (coordLe positionProperties)).Pairwise (fun a b =>
      a.getCoord positionProperties.coordPropertyName
        ≤ b.getCoord positionProperties.coordPropertyName) := by
  have h := @List.sorted_mergeSort TTooltipProps (coordLe positionProperties)
    (fun a b c hab hbc => by
      simp only [coordLe, decide_eq_true_eq] at hab hbc ⊢
      exact le_trans hab hbc)
    (fun a b => by
      simp only [coordLe, Bool.or_eq_true, decide_eq_true_eq]
      exact le_total _ _)
    l
  exact h.imp (fun hab => by simpa [coordLe] using hab)

/-- C8 (amended): shuffling the input candidate array (index fields intact)
yields identical shift assignments keyed by index, provided the candidates'
coordinates are pairwise distinct (so the stable sort's tie-breaking cannot
depend on the input order) and both orders agree on `checkHasOverlap`
(which walks the array in the caller's order); without these provisos
order independence fails, see
`calcTooltipPositions_order_dependent_counterexample`. -/
theorem calcTooltipPositions_order_independent (l₁ l₂ : List TTooltipProps)
    (allowTooltipOverlapping : Bool) (spacing : ℚ) (seriesViewRect : Rect)
    (pixelRatio : ℚ) (isVerticalChart : Bool)
    (hperm : l₁.Perm l₂)
    (hcoord : (l₁.map (fun t =>
      t.getCoord (getTooltipPositionProperties isVerticalChart).coordPropertyName)).Nodup)
    (hidx : (l₁.map (fun t => t.index)).Nodup)
    (hgate : checkHasOverlap (centeredArray l₁ pixelRatio isVerticalChart) spacing
          pixelRatio (getTooltipPositionProperties isVerticalChart)
        = checkHasOverlap (centeredArray l₂ pixelRatio isVerticalChart) spacing
          pixelRatio (getTooltipPositionProperties isVerticalChart)) :
    ∀ t₁ ∈ calcTooltipPositions l₁ allowTooltipOverlapping spacing seriesViewRect
        pixelRatio isVerticalChart,
      ∀ t₂ ∈ calcTooltipPositions l₂ allowTooltipOverlapping spacing seriesViewRect
          pixelRatio isVerticalChart,
        t₁.index = t₂.index → t₁ = t₂ := by
  have hcperm : (centeredArray l₁ pixelRatio isVerticalChart).Perm
      (centeredArray l₂ pixelRatio isVerticalChart) := by
    unfold centeredArray
    cases isVerticalChart with
    | false => exact hperm
    | true =>
      rw [if_pos rfl, if_pos rfl]
      exact hperm.map _
  have hcidx : ((centeredArray l₁ pixelRatio isVerticalChart).map
      (fun t => t.index)).Nodup := by
    rw [map_index_centeredArray]
    exact hidx
  have hinj : ∀ u ∈ centeredArray l₁ pixelRatio isVerticalChart,
      ∀ v ∈ centeredArray l₁ pixelRatio isVerticalChart, u.index = v.index → u = v :=
    fun u hu v hv huv => List.inj_on_of_nodup_map hcidx hu hv huv
  have hccoord : ((centeredArray l₁ pixelRatio isVerticalChart).map (fun t =>
      t.getCoord (getTooltipPositionProperties isVerticalChart).coordPropertyName)).Nodup := by
    rw [map_getCoord_centeredArray]
    exact hcoord
  have hsorteq : (centeredArray l₂ pixelRatio isVerticalChart).mergeSort
        (coordLe (getTooltipPositionProperties isVerticalChart))
      = (centeredArray l₁ pixelRatio isVerticalChart).mergeSort
        (coordLe (getTooltipPositionProperties isVerticalChart)) := by
    refine eq_of_perm_of_pairwise_key
      (fun t => t.getCoord (getTooltipPositionProperties isVerticalChart).coordPropertyName)
      _ _ ?_ ?_ ?_ ?_
    · exact ((List.mergeSort_perm _ _).trans hcperm.symm).trans
        (List.mergeSort_perm _ _).symm
    · exact mergeSort_coordLe_sorted _ _
    · exact mergeSort_coordLe_sorted _ _
    · exact (((List.mergeSort_perm _ _).trans hcperm.symm).map _).nodup_iff.mpr hccoord
  have hsplit : splitIntoClusters (centeredArray l₂ pixelRatio isVerticalChart) spacing
        pixelRatio (getTooltipPositionProperties isVerticalChart)
      = splitIntoClusters (centeredArray l₁ pixelRatio isVerticalChart) spacing
        pixelRatio (getTooltipPositionProperties isVerticalChart) := by
    unfold splitIntoClusters
    rw [hsorteq]
  have hlen : (centeredArray l₂ pixelRatio isVerticalChart).length
      = (centeredArray l₁ pixelRatio isVerticalChart).length := hcperm.symm.length_eq
  simp only [calcTooltipPositions]
  rw [hsplit, hlen, ← hgate]
  by_cases hG : (!allowTooltipOverlapping
      && decide (2 ≤ (centeredArray l₁ pixelRatio isVerticalChart).length)
      && checkHasOverlap (centeredArray l₁ pixelRatio isVerticalChart) spacing pixelRatio
          (getTooltipPositionProperties isVerticalChart)) = true
  · rw [if_pos hG, if_pos hG]
    intro t₁ ht₁ t₂ ht₂ h12
    rw [applyShiftMap] at ht₁ ht₂
    obtain ⟨u₁, hu₁, hft₁⟩ := List.mem_map.mp ht₁
    obtain ⟨u₂, hu₂, hft₂⟩ := List.mem_map.mp ht₂
    have hfidx : ∀ u : TTooltipProps, ∀ m : ShiftMap,
        ((match mapGet m u.index with
          | some v => u.setShift
              (getTooltipPositionProperties isVerticalChart).shiftPropertyName v
          | none => u) : TTooltipProps).index = u.index := by
      intro u m
      cases hm : mapGet m u.index with
      | some v => simp [index_setShift]
      | none => simp
    have hu12 : u₁.index = u₂.index := by
      have h₁ : t₁.index = u₁.index := by
        rw [← hft₁]
        exact hfidx u₁ _
      have h₂ : t₂.index = u₂.index := by
        rw [← hft₂]
        exact hfidx u₂ _
      rw [← h₁, ← h₂, h12]
    have : u₁ = u₂ := hinj u₁ hu₁ u₂ (hcperm.mem_iff.mpr hu₂) hu12
    rw [← hft₁, ← hft₂, this]
  · rw [if_neg hG, if_neg hG]
    intro t₁ ht₁ t₂ ht₂ h12
    exact hinj t₁ ht₁ t₂ (hcperm.mem_iff.mpr ht₂) h12

/-- The idempotence-counterexample candidates in a shuffled order. -/
def threePerm : List TTooltipProps :=
  [mkCandidate 1 10 20 0, mkCandidate 2 36 20 0, mkCandidate 0 0 20 0]

/-- Witness for `calcTooltipPositions_order_independent`: the three-candidate
cluster and a shuffle of it (distinct coordinates, both orders detect the
overlap) produce the same candidate record for every matching index. -/
theorem calcTooltipPositions_order_independent_witness :
    threeCluster.Perm threePerm
    ∧ ∀ t₁ ∈ calcTooltipPositions threeCluster false 4 viewRect1000 1 false,
        ∀ t₂ ∈ calcTooltipPositions threePerm false 4 viewRect1000 1 false,
          t₁.index = t₂.index → t₁ = t₂ :=
  ⟨of_decide_eq_true (by with_unfolding_all rfl),
    calcTooltipPositions_order_independent threeCluster threePerm false 4 viewRect1000 1 false
      (of_decide_eq_true (by with_unfolding_all rfl))
      (of_decide_eq_true (by with_unfolding_all rfl))
      (of_decide_eq_true (by with_unfolding_all rfl))
      (of_decide_eq_true (by with_unfolding_all rfl))⟩

end Rollover
